import Mathlib

/-!
Verification of the ai-presentation-generator repository.

The repository is a TypeScript web application with two flavors: a slide-deck
(presentation) generator (`src/App.tsx`, `src/unnamed/part_000`,
`src/services/pptxService.ts`) and an illustrated story (magazine) generator
(the story `App` in `src/components/ChatPanel.tsx`, `src/services/geminiService.ts`,
`src/unnamed/part_001`).

This file gives a shallow embedding of the data model (`types.ts`), the text
chunking loops, the sequential batch-generation loops, the slide/page update
handlers, the image-generation wrappers, the PDF exporter's two-pass
table-of-contents layout, and the export file-name derivation.  External
effects (the generative-AI HTTP calls, `crypto.randomUUID()`, jsPDF text
metrics) are modelled as explicit parameters; everything else is translated
directly from the source.
-/

/-! ## Data model (`types.ts`, both flavors) -/

/-- `SlideScaffold` from the presentation flavor's `types.ts`. -/
structure SlideScaffold where
  id : String
  title : String
  content : List String
  imageUrl : Option String
deriving DecidableEq, Inhabited

/-- `PresentationDocument` from the presentation flavor's `types.ts`. -/
structure PresentationDocument where
  id : String
  title : String
  slides : List SlideScaffold
deriving DecidableEq, Inhabited

/-- `PageScaffold` from the story flavor's `types.ts`. -/
structure PageScaffold where
  id : String
  page_number : Nat
  page_text : String
  ai_suggestions : List String
  images : List String
deriving DecidableEq, Inhabited

/-- `ChapterScaffold` from the story flavor's `types.ts`. -/
structure ChapterScaffold where
  id : String
  title : String
  summary : String
  pages : List PageScaffold
deriving DecidableEq, Inhabited

/-- `StoryDocument` from the story flavor's `types.ts`. -/
structure StoryDocument where
  id : String
  title : String
  chapters : List ChapterScaffold
deriving DecidableEq, Inhabited

/-- `AppState` from `types.ts`. -/
inductive AppState where
  | INPUT
  | EDITING
deriving DecidableEq, Inhabited

/-! ## Text chunking

`App.tsx` (`handlePresentationGeneration`):
```
const chunks: string[] = [];
for (let i = 0; i < data.length; i += CHUNK_SIZE) {
    chunks.push(data.substring(i, i + CHUNK_SIZE));
}
```
and identically in the story flavor's `handleScaffoldGeneration` with
`PAGE_CHUNK_SIZE`.  Each loop iteration takes the next `C` characters and
drops them from the remainder; we model strings as `List Char` (and reuse the
same function at other element types, e.g. grouping chunks into chapters). -/

/-- `CHUNK_SIZE = 3000 // characters per chunk/slide` from `App.tsx`. -/
def CHUNK_SIZE : Nat := 3000

/-- `PAGE_CHUNK_SIZE = 3200` from the story flavor's `App`. -/
def PAGE_CHUNK_SIZE : Nat := 3200

/-- The chunking loop: successive slices of `C` elements.
`C = 0` cannot occur (both constants are positive); we return `[]` there to
keep the function total. -/
def chunkText (C : Nat) (l : List α) : List (List α) :=
  if _hC : C = 0 then []
  else if _h : l.isEmpty then []
  else l.take C :: chunkText C (l.drop C)
termination_by l.length
decreasing_by
  simp only [List.length_drop]
  have hl : 0 < l.length := by
    cases l with
    | nil => simp at _h
    | cons a t => simp
  omega

theorem chunkText_nil {C : Nat} : chunkText C ([] : List α) = [] := by
  rw [chunkText]
  simp

theorem chunkText_cons {C : Nat} (hC : C ≠ 0) {l : List α} (h : l ≠ []) :
    chunkText C l = l.take C :: chunkText C (l.drop C) := by
  rw [chunkText]
  simp [hC, h]

/-- The number of chunks is `⌈length / C⌉`, written `(length + C - 1) / C`. -/
theorem chunkText_length (C : Nat) (hC : 0 < C) (l : List α) :
    (chunkText C l).length = (l.length + C - 1) / C := by
  have H : ∀ n (l : List α), l.length = n →
      (chunkText C l).length = (l.length + C - 1) / C := by
    intro n
    induction n using Nat.strong_induction_on with
    | _ n ih =>
      intro l hn
      by_cases h : l = []
      · subst h
        simp only [chunkText_nil, List.length_nil, Nat.zero_add]
        exact (Nat.div_eq_of_lt (by omega)).symm
      · rw [chunkText_cons (Nat.pos_iff_ne_zero.mp hC) h]
        have hl : 0 < l.length := List.length_pos.mpr h
        have hdrop : (l.drop C).length < n := by
          simp only [List.length_drop]
          omega
        have ihd := ih (l.drop C).length hdrop (l.drop C) rfl
        simp only [List.length_cons, ihd, List.length_drop]
        rcases le_or_lt l.length C with hle | hlt
        · have h1 : l.length - C = 0 := by omega
          rw [h1]
          have h2 : (l.length + C - 1) / C = 1 :=
            Nat.div_eq_of_lt_le (by omega) (by omega)
          have h3 : (0 + C - 1) / C = 0 := Nat.div_eq_of_lt (by omega)
          omega
        · have h1 : l.length - C + C - 1 + C = l.length + C - 1 := by omega
          have h2 : (l.length - C + C - 1 + C) / C = (l.length - C + C - 1) / C + 1 :=
            Nat.add_div_right _ hC
          rw [h1] at h2
          omega
  exact H l.length l rfl

/-- Chunk `j` is the slice starting at offset `C * j`; holds for every `j`
(out-of-range indices give `[]` on both sides). -/
theorem chunkText_getD (C : Nat) (hC : 0 < C) (l : List α) (j : Nat) :
    (chunkText C l).getD j [] = (l.drop (C * j)).take C := by
  have H : ∀ n (l : List α), l.length = n → ∀ j,
      (chunkText C l).getD j [] = (l.drop (C * j)).take C := by
    intro n
    induction n using Nat.strong_induction_on with
    | _ n ih =>
      intro l hn j
      by_cases h : l = []
      · subst h
        simp [chunkText_nil]
      · rw [chunkText_cons (Nat.pos_iff_ne_zero.mp hC) h]
        cases j with
        | zero => simp
        | succ j' =>
          have hl : 0 < l.length := List.length_pos.mpr h
          have hdrop : (l.drop C).length < n := by
            simp only [List.length_drop]
            omega
          have ihd := ih (l.drop C).length hdrop (l.drop C) rfl j'
          simp only [List.getD_cons_succ, ihd, List.drop_drop]
          have harith : C + C * j' = C * (j' + 1) := by ring
          rw [harith]
  exact H l.length l rfl j

/-- Every chunk except possibly the last has length exactly `C`. -/
theorem chunkText_getD_length_of_not_last (C : Nat) (hC : 0 < C) (l : List α)
    (j : Nat) (hj : j + 1 < (chunkText C l).length) :
    ((chunkText C l).getD j []).length = C := by
  rw [chunkText_getD C hC]
  rw [chunkText_length C hC] at hj
  simp only [List.length_take, List.length_drop]
  have h1 : j + 2 ≤ (l.length + C - 1) / C := hj
  have h2 : C * (j + 2) ≤ C * ((l.length + C - 1) / C) :=
    Nat.mul_le_mul_left C h1
  have h3 : C * ((l.length + C - 1) / C) ≤ l.length + C - 1 :=
    Nat.mul_div_le _ C
  have h4 : C * (j + 2) = C * j + C + C := by ring
  omega

/-- Every chunk is nonempty and no longer than `C`. -/
theorem chunkText_getD_length_le (C : Nat) (hC : 0 < C) (l : List α)
    (j : Nat) (hj : j < (chunkText C l).length) :
    0 < ((chunkText C l).getD j []).length ∧ ((chunkText C l).getD j []).length ≤ C := by
  rw [chunkText_getD C hC]
  rw [chunkText_length C hC] at hj
  simp only [List.length_take, List.length_drop]
  have h1 : j + 1 ≤ (l.length + C - 1) / C := hj
  have h2 : C * (j + 1) ≤ C * ((l.length + C - 1) / C) :=
    Nat.mul_le_mul_left C h1
  have h3 : C * ((l.length + C - 1) / C) ≤ l.length + C - 1 :=
    Nat.mul_div_le _ C
  have h4 : C * (j + 1) = C * j + C := by ring
  constructor <;> omega

/-- C1: For every input string of N characters, the chunking loop produces
exactly `⌈N/C⌉` chunks (`= (N + C - 1) / C`), with `C = CHUNK_SIZE = 3000` in
the presentation flavor (`App.tsx`) and `C = PAGE_CHUNK_SIZE = 3200` in the
story flavor; each chunk has length `C` except possibly the last, which is
nonempty and no longer than `C`. -/
theorem C1_chunk_count_and_sizes (data : List Char) :
    ((chunkText CHUNK_SIZE data).length = (data.length + CHUNK_SIZE - 1) / CHUNK_SIZE
      ∧ (∀ j, j + 1 < (chunkText CHUNK_SIZE data).length →
          ((chunkText CHUNK_SIZE data).getD j []).length = CHUNK_SIZE)
      ∧ (∀ j, j < (chunkText CHUNK_SIZE data).length →
          0 < ((chunkText CHUNK_SIZE data).getD j []).length
            ∧ ((chunkText CHUNK_SIZE data).getD j []).length ≤ CHUNK_SIZE))
    ∧ ((chunkText PAGE_CHUNK_SIZE data).length
          = (data.length + PAGE_CHUNK_SIZE - 1) / PAGE_CHUNK_SIZE
      ∧ (∀ j, j + 1 < (chunkText PAGE_CHUNK_SIZE data).length →
          ((chunkText PAGE_CHUNK_SIZE data).getD j []).length = PAGE_CHUNK_SIZE)
      ∧ (∀ j, j < (chunkText PAGE_CHUNK_SIZE data).length →
          0 < ((chunkText PAGE_CHUNK_SIZE data).getD j []).length
            ∧ ((chunkText PAGE_CHUNK_SIZE data).getD j []).length ≤ PAGE_CHUNK_SIZE)) := by
  have h3000 : 0 < CHUNK_SIZE := by decide
  have h3200 : 0 < PAGE_CHUNK_SIZE := by decide
  refine ⟨⟨chunkText_length _ h3000 data, ?_, ?_⟩,
          chunkText_length _ h3200 data, ?_, ?_⟩
  · exact fun j hj => chunkText_getD_length_of_not_last _ h3000 data j hj
  · exact fun j hj => chunkText_getD_length_le _ h3000 data j hj
  · exact fun j hj => chunkText_getD_length_of_not_last _ h3200 data j hj
  · exact fun j hj => chunkText_getD_length_le _ h3200 data j hj

/-- Concrete instantiation of `C1_chunk_count_and_sizes` at a 3001-character
input: two chunks for the presentation flavor, the first of full length. -/
theorem C1_chunk_count_and_sizes_witness :
    (chunkText CHUNK_SIZE (List.replicate 3001 'a')).length = 2
      ∧ ((chunkText CHUNK_SIZE (List.replicate 3001 'a')).getD 0 []).length = CHUNK_SIZE := by
  have h := C1_chunk_count_and_sizes (List.replicate 3001 'a')
  have hlen : (chunkText CHUNK_SIZE (List.replicate 3001 'a')).length = 2 := by
    rw [h.1.1, List.length_replicate]
    norm_num [CHUNK_SIZE]
  exact ⟨hlen, h.1.2.1 0 (by rw [hlen]; omega)⟩

/-! ## Story flavor: grouping chunks into chapters (C9)

`handleScaffoldGeneration` in the story `App`:
```
const chapterChunks = chunks.reduce((acc, chunk, i) => {
    const chapterIndex = Math.floor(i / 5); // Group chunks into chapters of ~5 pages
    if (!acc[chapterIndex]) acc[chapterIndex] = [];
    acc[chapterIndex].push(chunk);
    return acc;
}, [] as string[][]);

doc.chapters = chapterChunks.map((_, i) => ({
    id: crypto.randomUUID(),
    title: `Chapter ${i + 1} (pending...)`,
    summary: 'AI summary will appear here.',
    pages: [],
}));
```
-/

/-- One `reduce` step: push `x` into slot `j` of the accumulator, creating the
slot when absent.  The indices arrive in ascending order, so `j` never exceeds
the accumulator's length. -/
def pushChunk (acc : List (List α)) (j : Nat) (x : α) : List (List α) :=
  if j < acc.length then acc.set j ((acc.getD j []) ++ [x])
  else acc ++ [[x]]

/-- The `chunks.reduce` grouping of `handleScaffoldGeneration`. -/
def chapterGroups (chunks : List α) : List (List α) :=
  chunks.enum.foldl (fun acc p => pushChunk acc (p.1 / 5) p.2) []

/-- One pending `ChapterScaffold` per chunk group (`chapterChunks.map`);
`uuid i` supplies the `crypto.randomUUID()` result of the `i`-th call. -/
def pendingChapters (uuid : Nat → String) (chapterChunks : List (List (List Char))) :
    List ChapterScaffold :=
  chapterChunks.enum.map (fun p =>
    { id := uuid p.1
      title := "Chapter " ++ toString (p.1 + 1) ++ " (pending...)"
      summary := "AI summary will appear here."
      pages := [] })

theorem pushChunk_cons (c : List α) (rest : List (List α)) (j : Nat) (hj : 0 < j)
    (x : α) : pushChunk (c :: rest) j x = c :: pushChunk rest (j - 1) x := by
  unfold pushChunk
  rcases Nat.exists_eq_add_of_le hj with ⟨j', rfl⟩
  simp only [List.length_cons, Nat.add_comm 1 j', Nat.add_sub_cancel]
  by_cases h : j' < rest.length
  · simp only [if_pos (by omega : j' + 1 < rest.length + 1), if_pos h]
    simp [List.getD_cons_succ, List.set]
  · simp only [if_neg (by omega : ¬ j' + 1 < rest.length + 1), if_neg h]
    simp

/-- Appending one element to the text corresponds to one `pushChunk` step on
its `chunkText 5` grouping. -/
theorem chunkText_five_append (m : List α) (x : α) :
    chunkText 5 (m ++ [x]) = pushChunk (chunkText 5 m) (m.length / 5) x := by
  have H : ∀ n (m : List α), m.length = n →
      chunkText 5 (m ++ [x]) = pushChunk (chunkText 5 m) (m.length / 5) x := by
    intro n
    induction n using Nat.strong_induction_on with
    | _ n ih =>
      intro m hn
      by_cases h : m = []
      · subst h
        simp [chunkText_nil, pushChunk, chunkText_cons (by omega : (5:Nat) ≠ 0)]
      · rcases le_or_lt m.length 4 with hle | hlt
        · -- m and m ++ [x] both fit in a single chunk
          have hm : 0 < m.length := List.length_pos.mpr h
          have hx : (m ++ [x]) ≠ [] := by simp
          rw [chunkText_cons (by omega : (5:Nat) ≠ 0) hx,
              chunkText_cons (by omega : (5:Nat) ≠ 0) h]
          have h1 : (m ++ [x]).take 5 = m ++ [x] := by
            apply List.take_of_length_le
            simp
            omega
          have h2 : (m ++ [x]).drop 5 = [] := by
            apply List.drop_eq_nil_of_le
            simp
            omega
          have h3 : m.take 5 = m := List.take_of_length_le (by omega)
          have h4 : m.drop 5 = ([] : List α) := List.drop_eq_nil_of_le (by omega)
          have h5 : m.length / 5 = 0 := Nat.div_eq_of_lt (by omega)
          rw [h1, h2, h3, h4, h5, chunkText_nil]
          simp [pushChunk]
        · -- m has a full first chunk; recurse on the remainder
          have hx : (m ++ [x]) ≠ [] := by simp
          rw [chunkText_cons (by omega : (5:Nat) ≠ 0) hx,
              chunkText_cons (by omega : (5:Nat) ≠ 0) h]
          have h1 : (m ++ [x]).take 5 = m.take 5 := List.take_append_of_le_length (by omega)
          have h2 : (m ++ [x]).drop 5 = m.drop 5 ++ [x] := List.drop_append_of_le_length (by omega)
          have hdrop : (m.drop 5).length < n := by
            simp only [List.length_drop]
            omega
          have ihd := ih (m.drop 5).length hdrop (m.drop 5) rfl
          rw [h1, h2, ihd]
          have hj : 0 < m.length / 5 := by
            apply Nat.div_pos (by omega) (by omega)
          rw [pushChunk_cons _ _ _ hj]
          congr 2
          simp only [List.length_drop]
          omega
  exact H m.length m rfl

/-- The `reduce` with `Math.floor(i / 5)` is exactly size-5 chunking of the
chunk list. -/
theorem chapterGroups_eq_chunkText (chunks : List α) :
    chapterGroups chunks = chunkText 5 chunks := by
  have H : ∀ (rest m : List α),
      List.foldl (fun acc p => pushChunk acc (p.1 / 5) p.2) (chunkText 5 m)
        (rest.enumFrom m.length) = chunkText 5 (m ++ rest) := by
    intro rest
    induction rest with
    | nil => intro m; simp
    | cons y ys ihy =>
      intro m
      simp only [List.enumFrom, List.foldl_cons]
      rw [← chunkText_five_append m y]
      have hlen : (m ++ [y]).length = m.length + 1 := by simp
      have := ihy (m ++ [y])
      rw [hlen] at this
      rw [this]
      simp
  have h0 := H chunks []
  simpa [chapterGroups, List.enum, chunkText_nil] using h0

/-- C9: In the story flavor, `handleScaffoldGeneration` groups the N text
chunks into exactly `⌈N/5⌉` chapter groups, where group `j` contains chunks
`5j` through `min (5j+4) (N-1)` in their original order (i.e. group `j` is
`(chunks.drop (5*j)).take 5`), and creates exactly one pending chapter
scaffold per group. -/
theorem C9_chapter_grouping (chunks : List (List Char)) (uuid : Nat → String) :
    (chapterGroups chunks).length = (chunks.length + 4) / 5
    ∧ (∀ j, (chapterGroups chunks).getD j [] = (chunks.drop (5 * j)).take 5)
    ∧ (pendingChapters uuid (chapterGroups chunks)).length = (chapterGroups chunks).length
    ∧ (∀ j, j < (chapterGroups chunks).length →
        ((pendingChapters uuid (chapterGroups chunks)).getD j default).title
            = "Chapter " ++ toString (j + 1) ++ " (pending...)"
          ∧ ((pendingChapters uuid (chapterGroups chunks)).getD j default).pages = []) := by
  have h5 : (0:Nat) < 5 := by omega
  refine ⟨?_, ?_, ?_, ?_⟩
  · rw [chapterGroups_eq_chunkText, chunkText_length 5 h5]
    have : chunks.length + 5 - 1 = chunks.length + 4 := by omega
    rw [this]
  · intro j
    rw [chapterGroups_eq_chunkText, chunkText_getD 5 h5]
  · simp [pendingChapters]
  · intro j hj
    have hjlen : j < (chapterGroups chunks).enum.length := by
      simpa using hj
    have hmap : (pendingChapters uuid (chapterGroups chunks)).getD j default
        = ({ id := uuid ((chapterGroups chunks).enum[j].1)
             title := "Chapter " ++ toString ((chapterGroups chunks).enum[j].1 + 1)
                        ++ " (pending...)"
             summary := "AI summary will appear here."
             pages := [] } : ChapterScaffold) := by
      rw [pendingChapters, List.getD_eq_getElem _ _ (by simpa using hj)]
      rw [List.getElem_map]
    rw [hmap]
    have henum : (chapterGroups chunks).enum[j].1 = j := by
      rw [List.getElem_enum]
    rw [henum]
    exact ⟨rfl, rfl⟩

/-- Concrete instantiation of `C9_chapter_grouping`: six chunks give two
chapter groups, and the second pending chapter is titled
"Chapter 2 (pending...)" with no pages. -/
theorem C9_chapter_grouping_witness :
    (chapterGroups (List.replicate 6 (['x'] : List Char))).length = 2
    ∧ ((pendingChapters (fun _ => "u")
          (chapterGroups (List.replicate 6 (['x'] : List Char)))).getD 1 default).title
        = "Chapter 2 (pending...)" := by
  have h := C9_chapter_grouping (List.replicate 6 (['x'] : List Char)) (fun _ => "u")
  have hlen : (chapterGroups (List.replicate 6 (['x'] : List Char))).length = 2 := by
    rw [h.1, List.length_replicate]
  refine ⟨hlen, ?_⟩
  have ht := (h.2.2.2 1 (by rw [hlen]; omega)).1
  rw [ht]
  rfl

/-! ## Story flavor: the sequential chapter-generation loop

`startChapterGeneration` in the story `App`:
```
for (let i = 0; i < chapterChunks.length; i++) {
    if (signal.aborted) {
        setGenerationStatus(s => ({ ...s, active: false }));
        setRobotState('idle');
        return;
    }
    try {
        const chapter = await gemini.generateChapterFromChunk(...);
        setStoryDocument(doc => { ... newChapters[i] = chapter; ... });
        setGenerationStatus(s => ({ ...s, completed: i + 1 }));
    } catch (err) {
        if (err instanceof Error && err.name === 'AbortError') return;
        console.error(`Failed to generate chapter ${i + 1}`, err);
        setStoryDocument(doc => { ... doc.chapters[i].title = `Chapter ${i+1} (Failed)`; ... });
    }
}
setGenerationStatus({ active: false, completed: chapterChunks.length, total: chapterChunks.length });
```
`aborted i` is the value `signal.aborted` reads at the top of iteration `i`
(the single cancellation token set by `handleStopGeneration` / `handleReset`);
`results i` is the outcome of the `i`-th `generateChapterFromChunk` call.
The trace `calls` records the indices whose AI call was started. -/

/-- Outcome kind of a failed AI call: an `AbortError`-named error or any
other error. -/
inductive GenError where
  | abortError
  | otherError
deriving DecidableEq, Inhabited

/-- The mutable state touched by `startChapterGeneration`: the document's
chapter array, the `generationStatus` fields, and the trace of started
AI calls. -/
structure ChapterGenState where
  chapters : List ChapterScaffold
  active : Bool
  completed : Nat
  total : Nat
  calls : List Nat
deriving DecidableEq, Inhabited

/-- `` `Chapter ${i+1} (Failed)` `` from the catch branch. -/
def failedChapterTitle (i : Nat) : String :=
  "Chapter " ++ toString (i + 1) ++ " (Failed)"

/-- The `for` loop of `startChapterGeneration`, iteration `i` onward. -/
def chapterGenLoop (aborted : Nat → Bool)
    (results : Nat → Except GenError ChapterScaffold) (n : Nat)
    (i : Nat) (st : ChapterGenState) : ChapterGenState :=
  if i < n then
    if aborted i then { st with active := false }
    else
      match results i with
      | .ok ch =>
          chapterGenLoop aborted results n (i + 1)
            { st with calls := st.calls ++ [i],
                      chapters := st.chapters.set i ch,
                      completed := i + 1 }
      | .error .abortError => { st with calls := st.calls ++ [i] }
      | .error .otherError =>
          chapterGenLoop aborted results n (i + 1)
            { st with calls := st.calls ++ [i],
                      chapters := st.chapters.set i
                        { st.chapters.getD i default with
                            title := failedChapterTitle i } }
  else { st with active := false, completed := n, total := n }
termination_by n - i

/-- `startChapterGeneration doc.id chapterChunks` after `handleScaffoldGeneration`
has published the pending scaffold: the loop starts at `i = 0` on the status
`{ active: true, completed: 0, total: n }` set just before. -/
def startChapterGeneration (aborted : Nat → Bool)
    (results : Nat → Except GenError ChapterScaffold) (n : Nat)
    (chapters0 : List ChapterScaffold) : ChapterGenState :=
  chapterGenLoop aborted results n 0
    { chapters := chapters0, active := true, completed := 0, total := n, calls := [] }

theorem getD_set_self {β : Type _} (l : List β) (i : Nat) (a d : β)
    (h : i < l.length) : (l.set i a).getD i d = a := by
  induction l generalizing i with
  | nil => simp at h
  | cons b t ih =>
    cases i with
    | zero => rfl
    | succ i' =>
      simp only [List.set_cons_succ, List.getD_cons_succ]
      exact ih i' (by simpa using h)

theorem getD_set_ne {β : Type _} (l : List β) (i j : Nat) (a d : β)
    (h : i ≠ j) : (l.set i a).getD j d = l.getD j d := by
  induction l generalizing i j with
  | nil => simp
  | cons b t ih =>
    cases i with
    | zero =>
      cases j with
      | zero => exact absurd rfl h
      | succ j' => rfl
    | succ i' =>
      cases j with
      | zero => rfl
      | succ j' =>
        simp only [List.set_cons_succ, List.getD_cons_succ]
        exact ih i' j' (by omega)

/-- The loop never shrinks or grows the chapter array. -/
theorem chapterGenLoop_chapters_length (a : Nat → Bool)
    (r : Nat → Except GenError ChapterScaffold) (n : Nat) :
    ∀ i st, (chapterGenLoop a r n i st).chapters.length = st.chapters.length := by
  have H : ∀ d i st, n - i = d →
      (chapterGenLoop a r n i st).chapters.length = st.chapters.length := by
    intro d
    induction d with
    | zero =>
      intro i st hd
      rw [chapterGenLoop, if_neg (by omega : ¬ i < n)]
    | succ d ihd =>
      intro i st hd
      rw [chapterGenLoop]
      by_cases hin : i < n
      · rw [if_pos hin]
        by_cases hab : a i = true
        · rw [if_pos hab]
        · rw [if_neg hab]
          split
          · rw [ihd (i + 1) _ (by omega)]
            exact List.length_set _ _ _
          · rfl
          · rw [ihd (i + 1) _ (by omega)]
            exact List.length_set _ _ _
      · rw [if_neg hin]
  intro i st
  exact H (n - i) i st rfl

/-- Every call index the loop adds to the trace passed the abort check:
`signal.aborted` read `false` there, and the index lies in `[i, n)`. -/
theorem chapterGenLoop_calls_mem (a : Nat → Bool)
    (r : Nat → Except GenError ChapterScaffold) (n : Nat) :
    ∀ i st j, j ∈ (chapterGenLoop a r n i st).calls →
      j ∈ st.calls ∨ (a j = false ∧ i ≤ j ∧ j < n) := by
  have H : ∀ d i st j, n - i = d → j ∈ (chapterGenLoop a r n i st).calls →
      j ∈ st.calls ∨ (a j = false ∧ i ≤ j ∧ j < n) := by
    intro d
    induction d with
    | zero =>
      intro i st j hd hmem
      rw [chapterGenLoop, if_neg (by omega : ¬ i < n)] at hmem
      exact Or.inl hmem
    | succ d ihd =>
      intro i st j hd hmem
      rw [chapterGenLoop] at hmem
      by_cases hin : i < n
      · rw [if_pos hin] at hmem
        by_cases hab : a i = true
        · rw [if_pos hab] at hmem
          exact Or.inl hmem
        · rw [if_neg hab] at hmem
          have habf : a i = false := by
            cases hia : a i
            · rfl
            · exact absurd hia hab
          split at hmem
          · rcases ihd (i + 1) _ j (by omega) hmem with hc | ⟨h1, h2, h3⟩
            · rcases List.mem_append.mp hc with hc' | hc'
              · exact Or.inl hc'
              · have hji : j = i := by simpa using hc'
                subst hji
                exact Or.inr ⟨habf, le_refl _, hin⟩
            · exact Or.inr ⟨h1, by omega, h3⟩
          · rcases List.mem_append.mp hmem with hc' | hc'
            · exact Or.inl hc'
            · have hji : j = i := by simpa using hc'
              subst hji
              exact Or.inr ⟨habf, le_refl _, hin⟩
          · rcases ihd (i + 1) _ j (by omega) hmem with hc | ⟨h1, h2, h3⟩
            · rcases List.mem_append.mp hc with hc' | hc'
              · exact Or.inl hc'
              · have hji : j = i := by simpa using hc'
                subst hji
                exact Or.inr ⟨habf, le_refl _, hin⟩
            · exact Or.inr ⟨h1, by omega, h3⟩
      · rw [if_neg hin] at hmem
        exact Or.inl hmem
  intro i st j
  exact H (n - i) i st j rfl

/-- The trace only grows during the loop. -/
theorem chapterGenLoop_calls_grow (a : Nat → Bool)
    (r : Nat → Except GenError ChapterScaffold) (n : Nat) :
    ∀ i st j, j ∈ st.calls → j ∈ (chapterGenLoop a r n i st).calls := by
  have H : ∀ d i st j, n - i = d → j ∈ st.calls →
      j ∈ (chapterGenLoop a r n i st).calls := by
    intro d
    induction d with
    | zero =>
      intro i st j hd hmem
      rw [chapterGenLoop, if_neg (by omega : ¬ i < n)]
      exact hmem
    | succ d ihd =>
      intro i st j hd hmem
      rw [chapterGenLoop]
      by_cases hin : i < n
      · rw [if_pos hin]
        by_cases hab : a i = true
        · rw [if_pos hab]
          exact hmem
        · rw [if_neg hab]
          split
          · exact ihd (i + 1) _ j (by omega) (List.mem_append.mpr (Or.inl hmem))
          · exact List.mem_append.mpr (Or.inl hmem)
          · exact ihd (i + 1) _ j (by omega) (List.mem_append.mpr (Or.inl hmem))
      · rw [if_neg hin]
        exact hmem
  intro i st j
  exact H (n - i) i st j rfl

/-- If no call fails with an `AbortError`-named error, the loop always exits
with `generationStatus.active = false` (either through the abort check or
through normal completion). -/
theorem chapterGenLoop_active_false (a : Nat → Bool)
    (r : Nat → Except GenError ChapterScaffold) (n : Nat)
    (hr : ∀ j, r j ≠ .error .abortError) :
    ∀ i st, (chapterGenLoop a r n i st).active = false := by
  have H : ∀ d i st, n - i = d → (chapterGenLoop a r n i st).active = false := by
    intro d
    induction d with
    | zero =>
      intro i st hd
      rw [chapterGenLoop, if_neg (by omega : ¬ i < n)]
    | succ d ihd =>
      intro i st hd
      rw [chapterGenLoop]
      by_cases hin : i < n
      · rw [if_pos hin]
        by_cases hab : a i = true
        · rw [if_pos hab]
        · rw [if_neg hab]
          split
          · exact ihd (i + 1) _ (by omega)
          · next heq => exact absurd heq (hr i)
          · exact ihd (i + 1) _ (by omega)
      · rw [if_neg hin]
  intro i st
  exact H (n - i) i st rfl

/-- Chapters below the loop's start index are never touched. -/
theorem chapterGenLoop_frame (a : Nat → Bool)
    (r : Nat → Except GenError ChapterScaffold) (n : Nat) :
    ∀ i st j, j < i →
      (chapterGenLoop a r n i st).chapters.getD j default
        = st.chapters.getD j default := by
  have H : ∀ d i st j, n - i = d → j < i →
      (chapterGenLoop a r n i st).chapters.getD j default
        = st.chapters.getD j default := by
    intro d
    induction d with
    | zero =>
      intro i st j hd hj
      rw [chapterGenLoop, if_neg (by omega : ¬ i < n)]
    | succ d ihd =>
      intro i st j hd hj
      rw [chapterGenLoop]
      by_cases hin : i < n
      · rw [if_pos hin]
        by_cases hab : a i = true
        · rw [if_pos hab]
        · rw [if_neg hab]
          split
          · rw [ihd (i + 1) _ j (by omega) (by omega)]
            exact getD_set_ne _ _ _ _ _ (by omega)
          · rfl
          · rw [ihd (i + 1) _ j (by omega) (by omega)]
            exact getD_set_ne _ _ _ _ _ (by omega)
      · rw [if_neg hin]
  intro i st j hj
  exact H (n - i) i st j rfl hj

/-- If iteration `i` is reached with the signal clear, the call for chunk `i`
is started (its index enters the trace). -/
theorem chapterGenLoop_call_made (a : Nat → Bool)
    (r : Nat → Except GenError ChapterScaffold) (n : Nat)
    (i : Nat) (st : ChapterGenState) (hin : i < n) (hab : a i = false) :
    i ∈ (chapterGenLoop a r n i st).calls := by
  rw [chapterGenLoop, if_pos hin, if_neg (by simp [hab])]
  split
  · exact chapterGenLoop_calls_grow a r n (i + 1) _ i
      (List.mem_append.mpr (Or.inr (by simp)))
  · exact List.mem_append.mpr (Or.inr (by simp))
  · exact chapterGenLoop_calls_grow a r n (i + 1) _ i
      (List.mem_append.mpr (Or.inr (by simp)))

/-- C4: After the user aborts the in-progress batch of chapter generations via
the single cancellation token (`handleStopGeneration` or `handleReset`), no
further chapter generation call is started: for every index `i`, if the abort
signal is set before iteration `i` begins (`aborted i = true`), chapter `i` is
never generated (its index never enters the call trace) and the loop exits
with the generation status marked inactive (`active = false`).

The hypothesis `hr` records that no AI call fails with an `AbortError`-named
error: the cancellation token is read only by the loop's top-of-iteration
check and is never passed to `generateChapterFromChunk`, so aborting cannot
make an in-flight call reject with an `AbortError`. -/
theorem C4_abort_stops_generation (aborted : Nat → Bool)
    (results : Nat → Except GenError ChapterScaffold) (n : Nat)
    (chapters0 : List ChapterScaffold)
    (hr : ∀ j, results j ≠ .error .abortError)
    (i : Nat) (hab : aborted i = true) :
    i ∉ (startChapterGeneration aborted results n chapters0).calls
    ∧ (startChapterGeneration aborted results n chapters0).active = false := by
  constructor
  · intro hmem
    rcases chapterGenLoop_calls_mem aborted results n 0 _ i hmem with hc | ⟨h1, _, _⟩
    · simp at hc
    · rw [hab] at h1
      simp at h1
  · exact chapterGenLoop_active_false aborted results n hr 0 _

/-- Concrete instantiation of `C4_abort_stops_generation`: with two chunks and
the signal set from iteration 1 on, chapter 1 is never generated and the final
status is inactive. -/
theorem C4_abort_stops_generation_witness :
    1 ∉ (startChapterGeneration (fun j => decide (1 ≤ j)) (fun _ => .ok default) 2 [default, default]).calls
    ∧ (startChapterGeneration (fun j => decide (1 ≤ j)) (fun _ => .ok default) 2 [default, default]).active = false :=
  C4_abort_stops_generation (fun j => decide (1 ≤ j)) (fun _ => .ok default) 2
    [default, default] (fun _ => by simp) 1 (by decide)

/-- A fully successful, never-aborted run: the loop issues the calls in
ascending order `0, 1, …, n-1` and stores the chapter produced from chunk `i`
at index `i`. -/
theorem chapterGenLoop_all_ok (a : Nat → Bool)
    (r : Nat → Except GenError ChapterScaffold) (n : Nat)
    (ch : Nat → ChapterScaffold) :
    ∀ i st, (∀ j, i ≤ j → j < n → a j = false ∧ r j = .ok (ch j)) →
      n ≤ st.chapters.length →
      (chapterGenLoop a r n i st).calls = st.calls ++ List.range' i (n - i)
      ∧ (∀ j, i ≤ j → j < n →
          (chapterGenLoop a r n i st).chapters.getD j default = ch j) := by
  have H : ∀ d i st, n - i = d →
      (∀ j, i ≤ j → j < n → a j = false ∧ r j = .ok (ch j)) →
      n ≤ st.chapters.length →
      (chapterGenLoop a r n i st).calls = st.calls ++ List.range' i (n - i)
      ∧ (∀ j, i ≤ j → j < n →
          (chapterGenLoop a r n i st).chapters.getD j default = ch j) := by
    intro d
    induction d with
    | zero =>
      intro i st hd hok hlen
      rw [chapterGenLoop, if_neg (by omega : ¬ i < n)]
      constructor
      · rw [hd]
        simp [List.range']
      · intro j h1 h2
        omega
    | succ d ihd =>
      intro i st hd hok hlen
      have hin : i < n := by omega
      have hia := (hok i (le_refl i) hin).1
      have hires := (hok i (le_refl i) hin).2
      rw [chapterGenLoop, if_pos hin, if_neg (by simp [hia])]
      split
      · next c heq =>
        rw [hires] at heq
        have hc : c = ch i := by
          injection heq with heqv
          exact heqv.symm
        subst hc
        have hrec := ihd (i + 1)
          { st with calls := st.calls ++ [i],
                    chapters := st.chapters.set i (ch i),
                    completed := i + 1 }
          (by omega)
          (fun j hj1 hj2 => hok j (by omega) hj2)
          (by simpa using hlen)
        constructor
        · rw [hrec.1]
          have hrange : n - i = (n - (i + 1)) + 1 := by omega
          rw [hrange]
          simp [List.range']
        · intro j h1 h2
          rcases eq_or_lt_of_le h1 with hji | hlt
          · have hji' : j = i := hji.symm
            subst hji'
            rw [chapterGenLoop_frame a r n (j + 1) _ j (by omega)]
            exact getD_set_self _ _ _ _ (by omega)
          · exact hrec.2 j (by omega) h2
      · next heq =>
        rw [hires] at heq
        exact absurd heq.symm (by simp)
      · next heq =>
        rw [hires] at heq
        exact absurd heq.symm (by simp)
  intro i st hok hlen
  exact H (n - i) i st rfl hok hlen

/-- In the story loop, a non-abort failure at iteration `i` marks chapter `i`
as failed and the loop continues: the call for chunk `i + 1` is still
started. -/
theorem chapterGenLoop_failure_continues (a : Nat → Bool)
    (r : Nat → Except GenError ChapterScaffold) (n : Nat) (i : Nat) :
    ∀ i0 st, i0 ≤ i →
      (∀ j, i0 ≤ j → j ≤ i + 1 → a j = false) →
      (∀ j, i0 ≤ j → j < i → r j ≠ .error .abortError) →
      r i = .error .otherError → i + 1 < n → i < st.chapters.length →
      ((chapterGenLoop a r n i0 st).chapters.getD i default).title
          = failedChapterTitle i
      ∧ (i + 1) ∈ (chapterGenLoop a r n i0 st).calls := by
  have H : ∀ d i0 st, i - i0 = d → i0 ≤ i →
      (∀ j, i0 ≤ j → j ≤ i + 1 → a j = false) →
      (∀ j, i0 ≤ j → j < i → r j ≠ .error .abortError) →
      r i = .error .otherError → i + 1 < n → i < st.chapters.length →
      ((chapterGenLoop a r n i0 st).chapters.getD i default).title
          = failedChapterTitle i
      ∧ (i + 1) ∈ (chapterGenLoop a r n i0 st).calls := by
    intro d
    induction d with
    | zero =>
      intro i0 st hd hle hab hnoab hfail hin hlen
      have hi0 : i0 = i := by omega
      subst hi0
      have hia : a i0 = false := hab i0 (le_refl _) (by omega)
      rw [chapterGenLoop, if_pos (by omega : i0 < n), if_neg (by simp [hia])]
      split
      · next c heq =>
        rw [hfail] at heq
        exact absurd heq.symm (by simp)
      · next heq =>
        rw [hfail] at heq
        injection heq with heq'
        exact absurd heq'.symm (by simp)
      · constructor
        · rw [chapterGenLoop_frame a r n (i0 + 1) _ i0 (by omega)]
          rw [getD_set_self _ _ _ _ (by simpa using hlen)]
        · exact chapterGenLoop_call_made a r n (i0 + 1) _ (by omega)
            (hab (i0 + 1) (by omega) (by omega))
    | succ d ihd =>
      intro i0 st hd hle hab hnoab hfail hin hlen
      have hi0 : i0 < i := by omega
      have hia : a i0 = false := hab i0 (le_refl _) (by omega)
      rw [chapterGenLoop, if_pos (by omega : i0 < n), if_neg (by simp [hia])]
      split
      · exact ihd (i0 + 1) _ (by omega) (by omega)
          (fun j h1 h2 => hab j (by omega) h2)
          (fun j h1 h2 => hnoab j (by omega) h2)
          hfail hin (by simpa using hlen)
      · next heq =>
        exact absurd heq (hnoab i0 (le_refl _) hi0)
      · exact ihd (i0 + 1) _ (by omega) (by omega)
          (fun j h1 h2 => hab j (by omega) h2)
          (fun j h1 h2 => hnoab j (by omega) h2)
          hfail hin (by simpa using hlen)
  intro i0 st
  exact H (i - i0) i0 st rfl

/-! ## Image generation wrappers (C8)

`generateSlideImage` in `src/unnamed/part_000` and `generatePageImage` in
`src/services/geminiService.ts` both wrap the image-API call in try/catch:
```
try {
    const response = await ai.models.generateImages({ ... });
    return `data:image/jpeg;base64,${response.generatedImages[0].image.imageBytes}`;
} catch (e) {
    console.error("Image generation failed", e);
    return ""; // Return empty string on failure
}
```
`apiBytes` is the base64 payload read from the response when the whole try
block succeeds, and `none` when anything in it throws (the catch branch).
Both functions are total: they never propagate an exception. -/

/-- `generateSlideImage` from `src/unnamed/part_000`. -/
def generateSlideImage (apiBytes : Option String) : String :=
  match apiBytes with
  | some bytes => "data:image/jpeg;base64," ++ bytes
  | none => ""

/-- `generatePageImage` from `src/services/geminiService.ts` (same try/catch
shape, different prompt). -/
def generatePageImage (apiBytes : Option String) : String :=
  match apiBytes with
  | some bytes => "data:image/jpeg;base64," ++ bytes
  | none => ""

/-- The scaffold built at the end of `generateSlideFromChunk`
(`src/unnamed/part_000`):
```
const imageUrl = await generateSlideImage(parsed.image_prompt);
const slideScaffold: SlideScaffold = {
    id: crypto.randomUUID(),
    title: parsed.title,
    content: parsed.content || [],
    imageUrl: imageUrl || null,
};
```
`imageUrl || null` maps the falsy `""` to `null`. -/
def generateSlideFromChunk (uuid : String) (parsedTitle : String)
    (parsedContent : Option (List String)) (apiBytes : Option String) :
    SlideScaffold :=
  let imageUrl := generateSlideImage apiBytes
  { id := uuid
    title := parsedTitle
    content := parsedContent.getD []
    imageUrl := if imageUrl = "" then none else some imageUrl }

/-- C8: `generateSlideImage` and `generatePageImage` never throw (they are
total functions): if the underlying image-API call fails they return the
empty string, and on success they return a string beginning with
`"data:image/jpeg;base64,"`; consequently `generateSlideFromChunk` stores
`none` (never `some ""`) as a slide's `imageUrl` when image generation
fails. -/
theorem C8_image_generation_total :
    (∀ r : Option String,
      (r = none → generateSlideImage r = "" ∧ generatePageImage r = "")
      ∧ (∀ b, r = some b →
          (∃ rest, generateSlideImage r = "data:image/jpeg;base64," ++ rest)
          ∧ (∃ rest, generatePageImage r = "data:image/jpeg;base64," ++ rest)))
    ∧ (∀ uuid t c, (generateSlideFromChunk uuid t c none).imageUrl = none)
    ∧ (∀ uuid t c r, (generateSlideFromChunk uuid t c r).imageUrl ≠ some "") := by
  have hne : ∀ b : String, "data:image/jpeg;base64," ++ b ≠ "" := by
    intro b h
    have hlen := congrArg String.length h
    rw [String.length_append] at hlen
    have h23 : ("data:image/jpeg;base64," : String).length = 23 := by decide
    have h0 : ("" : String).length = 0 := by decide
    omega
  refine ⟨?_, ?_, ?_⟩
  · intro r
    constructor
    · rintro rfl
      exact ⟨rfl, rfl⟩
    · rintro b rfl
      exact ⟨⟨b, rfl⟩, ⟨b, rfl⟩⟩
  · intro uuid t c
    rfl
  · intro uuid t c r
    cases r with
    | none => simp [generateSlideFromChunk, generateSlideImage]
    | some b =>
      simp only [generateSlideFromChunk, generateSlideImage]
      rw [if_neg (hne b)]
      intro h
      exact hne b (by injection h)

/-- Concrete instantiation of `C8_image_generation_total`: a failed API call
yields `""` from the wrappers and a `none` image URL in the slide; a
successful call yields a data URL. -/
theorem C8_image_generation_total_witness :
    (generateSlideImage none = "" ∧ generatePageImage none = "")
    ∧ (∃ rest, generateSlideImage (some "abc") = "data:image/jpeg;base64," ++ rest)
    ∧ (generateSlideFromChunk "u" "t" none none).imageUrl = none :=
  ⟨(C8_image_generation_total.1 none).1 rfl,
   ((C8_image_generation_total.1 (some "abc")).2 "abc" rfl).1,
   C8_image_generation_total.2.1 "u" "t" none⟩

/-! ## Presentation flavor: `handlePresentationGeneration` (`App.tsx`)

```
setIsLoading(true); setLoadingMessage('Preparing presentation...'); setError(null);
try {
    const chunks ... (chunkText)
    if (chunks.length === 0) throw new Error("No text data to process.");
    const title = await generatePresentationTitle(chunks[0]);
    const doc = { id: crypto.randomUUID(), title, slides: [] };
    const generatedSlides: SlideScaffold[] = [];
    for (const [index, chunk] of chunks.entries()) {
        const slide = await generateSlideFromChunk(chunk, index + 1, chunks.length, title);
        generatedSlides.push(slide);
    }
    doc.slides = generatedSlides;
    setPresentationDocument(doc);
    setAppState('EDITING');
} catch (err) {
    console.error(err);
    setError('Failed to generate a presentation. Please check your file and try again.');
    setAppState('INPUT');
} finally {
    setIsLoading(false); setLoadingMessage('');
}
```
There is no per-item try/catch inside the slide loop: the first throwing call
aborts the whole batch via the outer catch.  `titleRes` is the outcome of
`generatePresentationTitle`, `res i chunk` the outcome of the
`generateSlideFromChunk` call for chunk `i` (`.error ()` when it throws);
the second component of the result is the trace of started slide-call
indices. -/

/-- The React state of the presentation `App` touched by
`handlePresentationGeneration`; `logged` records whether `console.error`
ran. -/
structure PresState where
  appState : AppState
  doc : Option PresentationDocument
  isLoading : Bool
  loadingMessage : String
  error : Option String
  logged : Bool
deriving DecidableEq, Inhabited

/-- The sequential `for (const [index, chunk] of chunks.entries())` loop.
Each call is awaited before the next chunk is looked at; a throwing call
(`.error`) ends the loop immediately. -/
def slideGenLoop (res : Nat → List Char → Except Unit SlideScaffold) :
    Nat → List (List Char) → Except Unit (List SlideScaffold) × List Nat
  | _, [] => (.ok [], [])
  | i, c :: cs =>
    match res i c with
    | .error e => (.error e, [i])
    | .ok s =>
      let rest := slideGenLoop res (i + 1) cs
      (rest.1.map (fun l => s :: l), i :: rest.2)

/-- The catch branch of `handlePresentationGeneration` (plus the `finally`):
log, set the generic error, go back to INPUT; the document is not touched. -/
def presentationFailure (st : PresState) : PresState :=
  { st with
      logged := true
      error := some "Failed to generate a presentation. Please check your file and try again."
      appState := .INPUT
      isLoading := false
      loadingMessage := "" }

/-- `handlePresentationGeneration` from `App.tsx`. -/
def handlePresentationGeneration (uuid : String) (st : PresState)
    (data : List Char) (titleRes : Except Unit String)
    (res : Nat → List Char → Except Unit SlideScaffold) :
    PresState × List Nat :=
  let st1 : PresState :=
    { st with isLoading := true, loadingMessage := "Preparing presentation...",
              error := none }
  let chunks := chunkText CHUNK_SIZE data
  if chunks.isEmpty then (presentationFailure st1, [])
  else
    match titleRes with
    | .error _ => (presentationFailure st1, [])
    | .ok title =>
      match slideGenLoop res 0 chunks with
      | (.error _, tr) => (presentationFailure st1, tr)
      | (.ok slides, tr) =>
        ({ st1 with
             doc := some { id := uuid, title := title, slides := slides }
             appState := .EDITING
             isLoading := false
             loadingMessage := "" }, tr)

/-- If some chunk's call throws, the slide loop as a whole errors out. -/
theorem slideGenLoop_error (res : Nat → List Char → Except Unit SlideScaffold) :
    ∀ (cs : List (List Char)) (i : Nat),
      (∃ k, k < cs.length ∧ res (i + k) (cs.getD k []) = .error ()) →
      (slideGenLoop res i cs).1 = .error () := by
  intro cs
  induction cs with
  | nil =>
    intro i h
    rcases h with ⟨k, hk, _⟩
    simp at hk
  | cons c cs ih =>
    intro i h
    rw [slideGenLoop]
    rcases hres : res i c with e | s
    · rfl
    · rcases h with ⟨k, hk, hkerr⟩
      cases k with
      | zero =>
        rw [Nat.add_zero] at hkerr
        rw [List.getD_cons_zero] at hkerr
        rw [hkerr] at hres
        cases hres
      | succ k' =>
        have hrec := ih (i + 1) ⟨k', by simpa using hk, by
          have : i + 1 + k' = i + (k' + 1) := by omega
          rw [this]
          simpa using hkerr⟩
        simp only [hrec]
        rfl

/-- If every chunk's call succeeds, the loop returns the slides in chunk
order and the trace is the ascending index sequence. -/
theorem slideGenLoop_all_ok (res : Nat → List Char → Except Unit SlideScaffold)
    (s : Nat → SlideScaffold) :
    ∀ (cs : List (List Char)) (i : Nat),
      (∀ k, k < cs.length → res (i + k) (cs.getD k []) = .ok (s (i + k))) →
      slideGenLoop res i cs
        = (.ok ((List.range' i cs.length).map s), List.range' i cs.length) := by
  intro cs
  induction cs with
  | nil =>
    intro i h
    simp [slideGenLoop, List.range']
  | cons c cs ih =>
    intro i h
    rw [slideGenLoop]
    have h0 : res i c = .ok (s i) := by
      have := h 0 (by simp)
      simpa using this
    rw [h0]
    have hrec := ih (i + 1) (fun k hk => by
      have : i + 1 + k = i + (k + 1) := by omega
      rw [this]
      have := h (k + 1) (by simpa using hk)
      simpa using this)
    rw [hrec]
    simp only [List.range']
    rfl

/-- C7: If any AI call during `handlePresentationGeneration` throws (the
title call or any slide call), the exception is caught and logged
(`console.error`), the user-facing error is set to the generic string
`'Failed to generate a presentation. Please check your file and try again.'`,
the app state returns to INPUT, and the presentation document is left
unchanged — in the app this handler only runs from the INPUT screen where the
document is `null`, so no partial document is ever published. -/
theorem C7_failure_is_caught (uuid : String) (st : PresState) (data : List Char)
    (titleRes : Except Unit String)
    (res : Nat → List Char → Except Unit SlideScaffold)
    (hfail : titleRes = .error ()
      ∨ ∃ k, k < (chunkText CHUNK_SIZE data).length
          ∧ res k ((chunkText CHUNK_SIZE data).getD k []) = .error ()) :
    (handlePresentationGeneration uuid st data titleRes res).1.error
        = some "Failed to generate a presentation. Please check your file and try again."
    ∧ (handlePresentationGeneration uuid st data titleRes res).1.appState = .INPUT
    ∧ (handlePresentationGeneration uuid st data titleRes res).1.doc = st.doc
    ∧ (handlePresentationGeneration uuid st data titleRes res).1.isLoading = false
    ∧ (handlePresentationGeneration uuid st data titleRes res).1.logged = true := by
  have key : (handlePresentationGeneration uuid st data titleRes res).1
      = presentationFailure
          { st with isLoading := true,
                    loadingMessage := "Preparing presentation...",
                    error := none } := by
    by_cases hemp : (chunkText CHUNK_SIZE data).isEmpty
    · cases titleRes with
      | error e => simp [handlePresentationGeneration, hemp]
      | ok t => simp [handlePresentationGeneration, hemp]
    · cases titleRes with
      | error e => simp [handlePresentationGeneration, hemp]
      | ok t =>
        rcases hfail with htitle | ⟨k, hk, hkerr⟩
        · cases htitle
        · have hloopErr : (slideGenLoop res 0 (chunkText CHUNK_SIZE data)).1
              = .error () :=
            slideGenLoop_error res _ 0 ⟨k, hk, by simpa using hkerr⟩
          rcases hloop : slideGenLoop res 0 (chunkText CHUNK_SIZE data) with ⟨r, tr⟩
          rw [hloop] at hloopErr
          simp only at hloopErr
          subst hloopErr
          simp [handlePresentationGeneration, hemp, hloop]
  refine ⟨?_, ?_, ?_, ?_, ?_⟩ <;> rw [key] <;> rfl

/-- Concrete instantiation of `C7_failure_is_caught`: a failing title call on
a one-chunk input produces the generic error, INPUT state, and an untouched
(`none`) document. -/
theorem C7_failure_is_caught_witness :
    (handlePresentationGeneration "u" default (List.replicate 10 'a') (.error ())
        (fun _ _ => .ok default)).1.error
      = some "Failed to generate a presentation. Please check your file and try again."
    ∧ (handlePresentationGeneration "u" default (List.replicate 10 'a') (.error ())
        (fun _ _ => .ok default)).1.doc = (default : PresState).doc := by
  have h := C7_failure_is_caught "u" default (List.replicate 10 'a') (.error ())
    (fun _ _ => .ok default) (Or.inl rfl)
  exact ⟨h.1, h.2.2.1⟩

/-- If the very first slide call throws, the slide batch stops immediately:
only call 0 is ever started. -/
theorem handlePresentationGeneration_first_slide_fails (uuid : String)
    (st : PresState) (data : List Char) (title : String)
    (res : Nat → List Char → Except Unit SlideScaffold)
    (c0 : List Char) (cs : List (List Char))
    (hc : chunkText CHUNK_SIZE data = c0 :: cs)
    (h0 : res 0 c0 = .error ()) :
    (handlePresentationGeneration uuid st data (.ok title) res).2 = [0] := by
  have hloop : slideGenLoop res 0 (c0 :: cs) = (.error (), [0]) := by
    simp [slideGenLoop, h0]
  simp [handlePresentationGeneration, hc, hloop]

/-- C2 counterexample: in the presentation flavor's per-chunk slide loop
there is no per-item recovery.  On a 6000-character input (two chunks), when
the call for chunk 0 fails with an ordinary (non-abort) error, the loop does
not continue to chunk 1: the trace of started slide calls is exactly `[0]`
(the whole batch is aborted by the outer catch instead of marking item 0 as
failed and moving on). -/
theorem C2_counterexample :
    1 < (chunkText CHUNK_SIZE (List.replicate 6000 'a')).length
    ∧ (handlePresentationGeneration "u" default (List.replicate 6000 'a') (.ok "T")
        (fun i _ => if i = 0 then .error () else .ok default)).2 = [0] := by
  have hlen2 : (chunkText CHUNK_SIZE (List.replicate 6000 'a')).length = 2 := by
    rw [chunkText_length _ (by decide), List.length_replicate]
    norm_num [CHUNK_SIZE]
  refine ⟨by omega, ?_⟩
  have hne : chunkText CHUNK_SIZE (List.replicate 6000 'a') ≠ [] := by
    intro h
    rw [h] at hlen2
    simp at hlen2
  obtain ⟨c0, cs, hc⟩ := List.exists_cons_of_ne_nil hne
  exact handlePresentationGeneration_first_slide_fails "u" default _ "T" _ c0 cs hc rfl

/-- C2 (amended): In the story flavor's per-chunk chapter loop
(`startChapterGeneration`), if generating one chapter fails with an error
that is not an abort, that chapter is marked as failed (its title becomes
`` `Chapter ${i+1} (Failed)` ``) and the loop continues to the next item (the
call for chunk `i + 1` is started).  In the presentation flavor's slide loop
there is no such per-item recovery: a failing call aborts the whole batch
(see the counterexample). -/
theorem C2_amended_story_failure_marks_and_continues (aborted : Nat → Bool)
    (results : Nat → Except GenError ChapterScaffold) (n : Nat)
    (chapters0 : List ChapterScaffold) (i : Nat)
    (hab : ∀ j, j ≤ i + 1 → aborted j = false)
    (hnoab : ∀ j, j < i → results j ≠ .error .abortError)
    (hfail : results i = .error .otherError)
    (hin : i + 1 < n) (hlen : i < chapters0.length) :
    ((startChapterGeneration aborted results n chapters0).chapters.getD i default).title
        = failedChapterTitle i
    ∧ (i + 1) ∈ (startChapterGeneration aborted results n chapters0).calls :=
  chapterGenLoop_failure_continues aborted results n i 0 _ (by omega)
    (fun j _ h2 => hab j h2) (fun j _ h2 => hnoab j h2) hfail hin
    (by simpa using hlen)

/-- Concrete instantiation of `C2_amended_story_failure_marks_and_continues`:
with three chunks and a non-abort failure at chunk 0, chapter 0 is retitled
"Chapter 1 (Failed)" and the call for chunk 1 is still started. -/
theorem C2_amended_story_failure_marks_and_continues_witness :
    ((startChapterGeneration (fun _ => false)
        (fun j => if j = 0 then .error .otherError else .ok default) 3
        [default, default, default]).chapters.getD 0 default).title
      = failedChapterTitle 0
    ∧ 1 ∈ (startChapterGeneration (fun _ => false)
        (fun j => if j = 0 then .error .otherError else .ok default) 3
        [default, default, default]).calls := by
  have h := C2_amended_story_failure_marks_and_continues (fun _ => false)
    (fun j => if j = 0 then .error .otherError else .ok default) 3
    [default, default, default] 0
    (fun j _ => rfl) (fun j hj => by omega) (by simp) (by omega) (by simp)
  exact h

/-- C5: Batch generation is sequential and order-preserving.  Both loops
issue their generative-AI calls one at a time in ascending chunk-index order
(the call traces are exactly `0, 1, …, n-1`; in this sequential model the
call for chunk `i+1` is only reached after the call for chunk `i` has
settled), and when generation succeeds the item produced from chunk `i` is
stored at index `i` of the document's slide (resp. chapter) array. -/
theorem C5_sequential_order_preserving
    (uuid : String) (st : PresState) (data : List Char) (title : String)
    (res : Nat → List Char → Except Unit SlideScaffold) (s : Nat → SlideScaffold)
    (aborted : Nat → Bool) (chres : Nat → Except GenError ChapterScaffold)
    (ch : Nat → ChapterScaffold) (n : Nat) (chapters0 : List ChapterScaffold)
    (hok : ∀ k, k < (chunkText CHUNK_SIZE data).length →
        res k ((chunkText CHUNK_SIZE data).getD k []) = .ok (s k))
    (hne : (chunkText CHUNK_SIZE data).length ≠ 0)
    (hstory : ∀ j, j < n → aborted j = false ∧ chres j = .ok (ch j))
    (hlen : n ≤ chapters0.length) :
    (handlePresentationGeneration uuid st data (.ok title) res).2
        = List.range (chunkText CHUNK_SIZE data).length
    ∧ (handlePresentationGeneration uuid st data (.ok title) res).1.doc
        = some { id := uuid, title := title,
                 slides := (List.range (chunkText CHUNK_SIZE data).length).map s }
    ∧ (∀ k, k < (chunkText CHUNK_SIZE data).length →
        ((handlePresentationGeneration uuid st data (.ok title) res).1.doc.getD
            default).slides.getD k default = s k)
    ∧ (startChapterGeneration aborted chres n chapters0).calls = List.range n
    ∧ (∀ j, j < n →
        (startChapterGeneration aborted chres n chapters0).chapters.getD j default
          = ch j) := by
  have hloop := slideGenLoop_all_ok res s (chunkText CHUNK_SIZE data) 0
    (fun k hk => by simpa using hok k hk)
  rw [← List.range_eq_range'] at hloop
  have hempty : (chunkText CHUNK_SIZE data).isEmpty = false := by
    cases hchunks : chunkText CHUNK_SIZE data with
    | nil =>
      rw [hchunks] at hne
      simp at hne
    | cons c cs => simp
  have hstoryLoop := chapterGenLoop_all_ok aborted chres n ch 0
    { chapters := chapters0, active := true, completed := 0, total := n, calls := [] }
    (fun j _ h2 => hstory j h2) (by simpa using hlen)
  refine ⟨?_, ?_, ?_, ?_, ?_⟩
  · simp [handlePresentationGeneration, hempty, hloop]
  · simp [handlePresentationGeneration, hempty, hloop]
  · intro k hk
    simp only [handlePresentationGeneration, hempty, hloop]
    simp only [Bool.false_eq_true, if_false, Option.getD_some]
    rw [List.getD_eq_getElem _ _ (by simpa using hk)]
    simp
  · rw [startChapterGeneration, hstoryLoop.1]
    simp [List.range_eq_range']
  · intro j hj
    exact hstoryLoop.2 j (by omega) hj

/-- Concrete instantiation of `C5_sequential_order_preserving`: a one-chunk
presentation input yields call trace `[0]`, and a one-chapter story run
yields call trace `[0]` with chapter 0 stored at index 0. -/
theorem C5_sequential_order_preserving_witness :
    (handlePresentationGeneration "u" default (List.replicate 10 'a') (.ok "T")
        (fun _ _ => .ok default)).2
      = List.range (chunkText CHUNK_SIZE (List.replicate 10 'a')).length
    ∧ (startChapterGeneration (fun _ => false) (fun _ => .ok default) 1
        [default]).calls = List.range 1
    ∧ (startChapterGeneration (fun _ => false) (fun _ => .ok default) 1
        [default]).chapters.getD 0 default = default := by
  have h := C5_sequential_order_preserving "u" default (List.replicate 10 'a') "T"
    (fun _ _ => .ok default) (fun _ => default)
    (fun _ => false) (fun _ => .ok default) (fun _ => default) 1 [default]
    (fun k _ => rfl)
    (by
      rw [chunkText_length _ (by decide), List.length_replicate]
      norm_num [CHUNK_SIZE])
    (fun j _ => ⟨rfl, rfl⟩)
    (by simp)
  exact ⟨h.1, h.2.2.2.1, h.2.2.2.2 0 (by omega)⟩

/-! ## Update handlers (C6)

`slideHandlers.onUpdateSlide` in `App.tsx`:
```
setPresentationDocument(doc => {
    if (!doc) return null;
    return { ...doc, slides: doc.slides.map(s => s.id === slideId ? { ...s, ...updates } : s) };
});
```
and `pageHandlers.onUpdatePage` in the story `App`:
```
setStoryDocument(doc => {
    if (!doc) return null;
    return { ...doc, chapters: doc.chapters.map(c => c.id === chapterId ? {
        ...c, pages: c.pages.map(p => p.id === pageId ? { ...p, ...updates } : p)
    } : c) };
});
```
A `Partial<...>` update carries an optional value per field; the object
spread `{ ...s, ...updates }` overrides exactly the fields present. -/

/-- `Partial<SlideScaffold>`. -/
structure SlideUpdates where
  id : Option String := none
  title : Option String := none
  content : Option (List String) := none
  imageUrl : Option (Option String) := none

/-- The object spread `{ ...s, ...updates }`. -/
def applySlideUpdates (s : SlideScaffold) (u : SlideUpdates) : SlideScaffold :=
  { id := u.id.getD s.id
    title := u.title.getD s.title
    content := u.content.getD s.content
    imageUrl := u.imageUrl.getD s.imageUrl }

/-- `slideHandlers.onUpdateSlide` on a non-null document. -/
def onUpdateSlide (doc : PresentationDocument) (slideId : String)
    (updates : SlideUpdates) : PresentationDocument :=
  { doc with slides :=
      doc.slides.map (fun s =>
        if s.id = slideId then applySlideUpdates s updates else s) }

/-- `Partial<PageScaffold>`. -/
structure PageUpdates where
  id : Option String := none
  page_number : Option Nat := none
  page_text : Option String := none
  ai_suggestions : Option (List String) := none
  images : Option (List String) := none

/-- The object spread `{ ...p, ...updates }`. -/
def applyPageUpdates (p : PageScaffold) (u : PageUpdates) : PageScaffold :=
  { id := u.id.getD p.id
    page_number := u.page_number.getD p.page_number
    page_text := u.page_text.getD p.page_text
    ai_suggestions := u.ai_suggestions.getD p.ai_suggestions
    images := u.images.getD p.images }

/-- `pageHandlers.onUpdatePage` on a non-null document. -/
def onUpdatePage (doc : StoryDocument) (chapterId pageId : String)
    (updates : PageUpdates) : StoryDocument :=
  { doc with chapters :=
      doc.chapters.map (fun c =>
        if c.id = chapterId then
          { c with pages :=
              c.pages.map (fun p =>
                if p.id = pageId then applyPageUpdates p updates else p) }
        else c) }

theorem getD_map {β γ : Type _} (f : β → γ) (l : List β) (i : Nat) (d : β)
    (d2 : γ) (h : i < l.length) : (l.map f).getD i d2 = f (l.getD i d) := by
  rw [List.getD_eq_getElem _ _ (by simpa using h), List.getD_eq_getElem _ _ h]
  simp

theorem map_eq_self_of {β : Type _} (l : List β) (f : β → β)
    (h : ∀ a ∈ l, f a = a) : l.map f = l := by
  induction l with
  | nil => rfl
  | cons a t ih =>
    simp only [List.map_cons]
    rw [h a (by simp), ih (fun b hb => h b (by simp [hb]))]

/-- C6: `onUpdateSlide slideId updates` (and likewise
`onUpdatePage chapterId pageId updates`) modifies only the slide (page) whose
id matches: the document's id and title, every other slide (chapter and
page), and the length and insertion order of all arrays (element `i` stays at
position `i`) are unchanged; if no item has the given id, the whole document
is unchanged. -/
theorem C6_update_frame (doc : PresentationDocument) (slideId : String)
    (u : SlideUpdates) (sdoc : StoryDocument) (chapterId pageId : String)
    (v : PageUpdates) :
    (onUpdateSlide doc slideId u).id = doc.id
    ∧ (onUpdateSlide doc slideId u).title = doc.title
    ∧ (onUpdateSlide doc slideId u).slides.length = doc.slides.length
    ∧ (∀ i, i < doc.slides.length → (doc.slides.getD i default).id ≠ slideId →
        (onUpdateSlide doc slideId u).slides.getD i default
          = doc.slides.getD i default)
    ∧ ((∀ s ∈ doc.slides, s.id ≠ slideId) → onUpdateSlide doc slideId u = doc)
    ∧ (onUpdatePage sdoc chapterId pageId v).id = sdoc.id
    ∧ (onUpdatePage sdoc chapterId pageId v).title = sdoc.title
    ∧ (onUpdatePage sdoc chapterId pageId v).chapters.length = sdoc.chapters.length
    ∧ (∀ i, i < sdoc.chapters.length →
        (sdoc.chapters.getD i default).id ≠ chapterId →
        (onUpdatePage sdoc chapterId pageId v).chapters.getD i default
          = sdoc.chapters.getD i default)
    ∧ (∀ i, i < sdoc.chapters.length →
        ((onUpdatePage sdoc chapterId pageId v).chapters.getD i default).id
            = (sdoc.chapters.getD i default).id
        ∧ ((onUpdatePage sdoc chapterId pageId v).chapters.getD i default).title
            = (sdoc.chapters.getD i default).title
        ∧ ((onUpdatePage sdoc chapterId pageId v).chapters.getD i default).summary
            = (sdoc.chapters.getD i default).summary
        ∧ ((onUpdatePage sdoc chapterId pageId v).chapters.getD i default).pages.length
            = (sdoc.chapters.getD i default).pages.length
        ∧ (∀ j, j < (sdoc.chapters.getD i default).pages.length →
            ((sdoc.chapters.getD i default).pages.getD j default).id ≠ pageId →
            ((onUpdatePage sdoc chapterId pageId v).chapters.getD i default).pages.getD
                j default
              = (sdoc.chapters.getD i default).pages.getD j default))
    ∧ ((∀ c ∈ sdoc.chapters, c.id = chapterId → ∀ p ∈ c.pages, p.id ≠ pageId) →
        onUpdatePage sdoc chapterId pageId v = sdoc) := by
  refine ⟨rfl, rfl, by simp [onUpdateSlide], ?_, ?_, rfl, rfl,
    by simp [onUpdatePage], ?_, ?_, ?_⟩
  · intro i hi hne
    rw [onUpdateSlide]
    simp only
    rw [getD_map _ _ i default default hi, if_neg hne]
  · intro hnone
    rw [onUpdateSlide]
    rw [map_eq_self_of _ _ (fun s hs => if_neg (hnone s hs))]
  · intro i hi hne
    rw [onUpdatePage]
    simp only
    rw [getD_map _ _ i default default hi, if_neg hne]
  · intro i hi
    rw [onUpdatePage]
    simp only
    rw [getD_map _ _ i default default hi]
    by_cases hc : (sdoc.chapters.getD i default).id = chapterId
    · rw [if_pos hc]
      refine ⟨rfl, rfl, rfl, by simp, ?_⟩
      intro j hj hpne
      simp only
      rw [getD_map _ _ j default default hj, if_neg hpne]
    · rw [if_neg hc]
      exact ⟨rfl, rfl, rfl, rfl, fun j hj hpne => rfl⟩
  · intro hnone
    rw [onUpdatePage]
    rw [map_eq_self_of _ _ (fun c hc => ?_)]
    by_cases hcid : c.id = chapterId
    · rw [if_pos hcid]
      rw [map_eq_self_of _ _ (fun p hp => if_neg (hnone c hc hcid p hp))]
    · exact if_neg hcid

/-- Concrete instantiation of `C6_update_frame`: updating slide "s2" leaves
slide "s1" (at position 0) unchanged, and an update aimed at an absent page
leaves the story document unchanged. -/
theorem C6_update_frame_witness :
    (onUpdateSlide
        { id := "d", title := "T",
          slides := [{ id := "s1", title := "A", content := [], imageUrl := none },
                     { id := "s2", title := "B", content := [], imageUrl := none }] }
        "s2" { title := some "B2" }).slides.getD 0 default
      = { id := "s1", title := "A", content := [], imageUrl := none }
    ∧ onUpdatePage { id := "sd", title := "ST", chapters := [] } "c" "p" {}
      = { id := "sd", title := "ST", chapters := [] } := by
  obtain ⟨h1, h2, h3, h4, h5, h6, h7, h8, h9, h10, h11⟩ := C6_update_frame
    { id := "d", title := "T",
      slides := [{ id := "s1", title := "A", content := [], imageUrl := none },
                 { id := "s2", title := "B", content := [], imageUrl := none }] }
    "s2" { title := some "B2" }
    { id := "sd", title := "ST", chapters := [] } "c" "p" {}
  constructor
  · rw [h4 0 (by simp) (by decide)]
    rfl
  · exact h11 (fun c hc => absurd hc (List.not_mem_nil c))

/-! ## Export file names (C10)

`createPresentation` (`pptxService.ts`):
```
const fileName = `${doc.title.replace(/[^a-z0-9]/gi, '_').toLowerCase()}.pptx`;
```
and `createPdf` (`src/unnamed/part_001`):
```
const fileName = `${doc.title.replace(/[^a-z0-9]/gi, '_').toLowerCase()}.pdf`;
```
JS strings are mapped character-wise; after the replacement the string is
pure ASCII `[A-Za-z0-9_]`, on which JS `toLowerCase` is plain ASCII
lowercasing. -/

/-- The character class `[a-z0-9]` under the regex's `i` flag: lowercase
letters, uppercase letters (case-insensitive flag), digits. -/
def matchesAlnumCI (c : Char) : Bool :=
  ('a' ≤ c && c ≤ 'z') || ('A' ≤ c && c ≤ 'Z') || ('0' ≤ c && c ≤ '9')

/-- `title.replace(/[^a-z0-9]/gi, '_')`. -/
def replaceNonAlnum (t : String) : String :=
  String.mk (t.data.map (fun c => if matchesAlnumCI c then c else '_'))

/-- `.toLowerCase()` as a per-character map (exact for the ASCII strings it
is applied to here). -/
def jsToLowerCase (t : String) : String :=
  String.mk (t.data.map Char.toLower)

/-- The `.pptx` file name built in `createPresentation`. -/
def createPresentationFileName (title : String) : String :=
  jsToLowerCase (replaceNonAlnum title) ++ ".pptx"

/-- The `.pdf` file name built in `createPdf`. -/
def createPdfFileName (title : String) : String :=
  jsToLowerCase (replaceNonAlnum title) ++ ".pdf"

/-- The file-name derivation exactly as the claim words it: every character
that is not an ASCII letter or digit (`Char.isAlphanum`) is replaced by `'_'`,
the result is lowercased, and the extension is appended. -/
def specFileName (title : String) (ext : String) : String :=
  String.mk ((title.data.map (fun c => if c.isAlphanum then c else '_')).map
    Char.toLower) ++ ext

theorem matchesAlnumCI_eq_isAlphanum (c : Char) :
    matchesAlnumCI c = c.isAlphanum := by
  simp only [matchesAlnumCI, Char.isAlphanum, Char.isAlpha, Char.isDigit,
    Char.isUpper, Char.isLower]
  rw [Bool.eq_iff_iff]
  simp only [Bool.or_eq_true, Bool.and_eq_true, decide_eq_true_eq, ge_iff_le,
    Char.le_def]
  have h1 : ('a').val = (97 : UInt32) := by decide
  have h2 : ('z').val = (122 : UInt32) := by decide
  have h3 : ('A').val = (65 : UInt32) := by decide
  have h4 : ('Z').val = (90 : UInt32) := by decide
  have h5 : ('0').val = (48 : UInt32) := by decide
  have h6 : ('9').val = (57 : UInt32) := by decide
  rw [h1, h2, h3, h4, h5, h6]
  tauto

/-- C10: The exported file name in both `createPresentation` and `createPdf`
is derived deterministically from the document title (both sides are pure
functions of it): every character that is not an ASCII letter or digit is
replaced by `'_'`, the result is lowercased, and `.pptx` (resp. `.pdf`) is
appended. -/
theorem C10_export_file_names (title : String) :
    createPresentationFileName title = specFileName title ".pptx"
    ∧ createPdfFileName title = specFileName title ".pdf" := by
  have hbase : jsToLowerCase (replaceNonAlnum title)
      = String.mk ((title.data.map (fun c => if c.isAlphanum then c else '_')).map
          Char.toLower) := by
    rw [jsToLowerCase, replaceNonAlnum]
    have : (String.mk (title.data.map (fun c => if matchesAlnumCI c then c else '_'))).data
        = title.data.map (fun c => if matchesAlnumCI c then c else '_') := rfl
    rw [this]
    congr 1
    congr 1
    apply List.map_congr_left
    intro c _
    rw [matchesAlnumCI_eq_isAlphanum]
  exact ⟨by rw [createPresentationFileName, specFileName, hbase],
         by rw [createPdfFileName, specFileName, hbase]⟩

/-! ## PDF export: two-pass table-of-contents layout (C3)

`createPdf` (`src/unnamed/part_001`) lays out an A4 portrait document in
points (`pageH = 841.89`, `margin = 50`).  The dry run records a page number
per chapter for the table of contents:
```
let pageCounter = 3; // Cover=1, TOC=2
for (const chapter of doc.chapters) {
    tocEntries.push({ title: chapter.title, page: pageCounter });
    yPos = margin;
    yPos += 30; // Space for title
    for (const page of chapter.pages) {
        if (page.images[0] && imageMap.get(page.images[0])) yPos += 160;
        const textLines = pdf.splitTextToSize(page.page_text, contentWidth);
        yPos += textLines.length * 14;
        if (yPos > pageH - margin) { pageCounter++; yPos = margin; }
    }
    pageCounter++;
}
```
The drawing pass then renders the chapters:
```
for (const chapter of doc.chapters) {
    pdf.addPage();
    yPos = margin;
    pdf.text(chapterTitleLines, pageW / 2, yPos, { align: 'center' });
    yPos += (chapterTitleLines.length * 20) + 20;
    for (const page of chapter.pages) {
        const base64Image = page.images[0] ? imageMap.get(page.images[0]) : null;
        if (base64Image) {
            const imgH = 150;
            if (yPos + imgH > pageH - margin) { pdf.addPage(); yPos = margin; }
            pdf.addImage(...); yPos += imgH + 15;
        }
        const textLines = pdf.splitTextToSize(page.page_text, contentWidth);
        textLines.forEach(line => {
            if (yPos > pageH - margin) { pdf.addPage(); yPos = margin; }
            pdf.text(line, margin, yPos); yPos += 14;
        });
        yPos += 28;
    }
}
```
jsPDF's text metrics are abstracted: a chapter title is measured by its
wrapped line count, a page by whether its first image is present and
preloaded (`page.images[0]` truthy and in `imageMap` — the same condition in
both passes) and by the wrapped line count `splitTextToSize` returns for its
`page_text` (the same call in both passes).  The vertical arithmetic is
exact rational arithmetic; in the concrete inputs used below every
comparison is far from a tie, so this matches the IEEE doubles the browser
uses. -/

/-- A page as the layout passes see it. -/
structure PageMeasure where
  hasImage : Bool
  textLines : Nat
deriving DecidableEq, Inhabited

/-- A chapter as the layout passes see it. -/
structure ChapterMeasure where
  titleLines : Nat
  pages : List PageMeasure
deriving DecidableEq, Inhabited

/-- `pdf.internal.pageSize.getHeight()` for A4 portrait in points. -/
def pageH : ℚ := 841.89

/-- `const margin = 50`. -/
def pdfMargin : ℚ := 50

/-- Dry-run inner loop over a chapter's pages: returns the running `yPos`
and `pageCounter`. -/
def dryRunPages : List PageMeasure → ℚ → Nat → ℚ × Nat
  | [], y, pc => (y, pc)
  | p :: rest, y, pc =>
    let y1 := if p.hasImage then y + 160 else y
    let y2 := y1 + (p.textLines : ℚ) * 14
    if y2 > pageH - pdfMargin then dryRunPages rest pdfMargin (pc + 1)
    else dryRunPages rest y2 pc

/-- The per-chapter page numbers recorded in `tocEntries` by the dry run,
starting from `pageCounter`. -/
def tocPagesAux : List ChapterMeasure → Nat → List Nat
  | [], _ => []
  | c :: rest, pc =>
    pc :: tocPagesAux rest ((dryRunPages c.pages (pdfMargin + 30) pc).2 + 1)

/-- The table-of-contents page numbers (`pageCounter` starts at 3:
Cover=1, TOC=2). -/
def tocPages (chs : List ChapterMeasure) : List Nat :=
  tocPagesAux chs 3

/-- Drawing one page's text lines: one overflow check per line. -/
def drawTextLines : Nat → ℚ → Nat → ℚ × Nat
  | 0, y, pg => (y, pg)
  | k + 1, y, pg =>
    if y > pageH - pdfMargin then drawTextLines k (pdfMargin + 14) (pg + 1)
    else drawTextLines k (y + 14) pg

/-- Drawing one page: optional image (with its own overflow check), then the
text lines, then paragraph spacing. -/
def drawPage (p : PageMeasure) (y : ℚ) (pg : Nat) : ℚ × Nat :=
  let imgStep :=
    if p.hasImage then
      if y + 150 > pageH - pdfMargin then ((pdfMargin + 165 : ℚ), pg + 1)
      else (y + 165, pg)
    else (y, pg)
  let textStep := drawTextLines p.textLines imgStep.1 imgStep.2
  (textStep.1 + 28, textStep.2)

/-- Drawing all pages of a chapter. -/
def drawPagesList : List PageMeasure → ℚ → Nat → ℚ × Nat
  | [], y, pg => (y, pg)
  | p :: rest, y, pg =>
    let step := drawPage p y pg
    drawPagesList rest step.1 step.2

/-- The page on which each chapter's title is actually drawn: the drawing
pass calls `addPage()` (current page + 1), draws the title there, then draws
the chapter's pages. -/
def titlePagesAux : List ChapterMeasure → Nat → List Nat
  | [], _ => []
  | c :: rest, pg =>
    (pg + 1) :: titlePagesAux rest
      (drawPagesList c.pages (pdfMargin + (c.titleLines : ℚ) * 20 + 20) (pg + 1)).2

/-- The actual title pages (the drawing pass starts on page 2: Cover=1, the
`addPage()` for the TOC made page 2 current). -/
def titlePages (chs : List ChapterMeasure) : List Nat :=
  titlePagesAux chs 2

theorem tocPagesAux_length (chs : List ChapterMeasure) :
    ∀ pc, (tocPagesAux chs pc).length = chs.length := by
  induction chs with
  | nil => intro pc; rfl
  | cons c rest ih =>
    intro pc
    simp only [tocPagesAux, List.length_cons, ih]

theorem titlePagesAux_length (chs : List ChapterMeasure) :
    ∀ pg, (titlePagesAux chs pg).length = chs.length := by
  induction chs with
  | nil => intro pg; rfl
  | cons c rest ih =>
    intro pg
    simp only [titlePagesAux, List.length_cons, ih]

/-- C3 counterexample: for the story whose first chapter has a one-line title
and four pages, each with a preloaded image and no text, and whose second
chapter is empty, the dry run records page 4 for the second chapter while the
drawing pass draws its title on page 5.  (The dry run budgets 160pt per image
with a single overflow check per page and 30pt for the title; the drawing
pass uses 150pt + 15pt per image with its own pre-placement check, 40pt for a
one-line title, and 28pt paragraph spacing — so the passes disagree.) -/
theorem C3_counterexample :
    (tocPages [⟨1, [⟨true, 0⟩, ⟨true, 0⟩, ⟨true, 0⟩, ⟨true, 0⟩]⟩, ⟨1, []⟩]).getD 1 0
      = 4
    ∧ (titlePages [⟨1, [⟨true, 0⟩, ⟨true, 0⟩, ⟨true, 0⟩, ⟨true, 0⟩]⟩, ⟨1, []⟩]).getD 1 0
      = 5 := by
  constructor
  · norm_num [tocPages, tocPagesAux, dryRunPages, pageH, pdfMargin]
  · norm_num [titlePages, titlePagesAux, drawPagesList, drawPage, drawTextLines,
      pageH, pdfMargin]

/-- C3 (amended): The two passes record one page number per chapter each
(`tocEntries` has one entry per chapter and every chapter title is drawn on
some page), and for the FIRST chapter the recorded number and the actual page
agree: both are page 3.  For later chapters the dry-run estimate can diverge
from the page on which the chapter's title is actually drawn (see the
counterexample), because the dry run approximates the title block as a fixed
30pt, budgets 160pt per image with one overflow check per page, and ignores
the 28pt paragraph spacing, while the drawing pass uses the real title
height, 165pt per image with a pre-placement check, and per-line overflow
checks. -/
theorem C3_amended_first_chapter (chs : List ChapterMeasure) (h : chs ≠ []) :
    (tocPages chs).getD 0 0 = 3
    ∧ (titlePages chs).getD 0 0 = 3
    ∧ (tocPages chs).length = chs.length
    ∧ (titlePages chs).length = chs.length := by
  cases chs with
  | nil => exact absurd rfl h
  | cons c rest =>
    exact ⟨rfl, rfl, tocPagesAux_length _ 3, titlePagesAux_length _ 2⟩

/-- Concrete instantiation of `C3_amended_first_chapter` on a one-chapter
story: both passes put the first chapter on page 3. -/
theorem C3_amended_first_chapter_witness :
    (tocPages [⟨1, []⟩]).getD 0 0 = 3 ∧ (titlePages [⟨1, []⟩]).getD 0 0 = 3 := by
  have h := C3_amended_first_chapter [⟨1, []⟩] (by simp)
  exact ⟨h.1, h.2.1⟩

/-- Concrete instantiation of `C10_export_file_names`: a title with spaces,
punctuation and capitals maps to the sanitized lowercase file names. -/
theorem C10_export_file_names_witness :
    createPresentationFileName "My Title!" = "my_title_.pptx"
    ∧ createPdfFileName "My Title!" = "my_title_.pdf" := by
  have h := C10_export_file_names "My Title!"
  rw [h.1, h.2]
  exact ⟨by decide, by decide⟩
